import Mathlib

/-!
Shallow embedding of `src/trashdays.py` (mhtrash.com).

Dates are modelled as integers: the number of days since 1970-01-01 in the
proleptic Gregorian calendar (all dates in the program are normalized to
midnight in a single fixed timezone, so a date is fully described by its day
number).  The civil (year, month, day) view of a day number, and the day
number of a civil date, are computed with the standard Gregorian conversion
algorithms, mirroring what Python's `datetime` provides to the source.

`weekday z = (z + 3) % 7` matches Python's `date.weekday()` (Monday = 0,
Tuesday = 1, Wednesday = 2): day 0 = 1970-01-01 was a Thursday (= 3).
-/

namespace TrashDays

/-- Day number of a civil (proleptic Gregorian) date, days since 1970-01-01.
Standard days-from-civil conversion; division is Euclidean (floor for the
positive divisors used here). -/
def daysFromCivil (y m d : Int) : Int :=
  let y2 := if m ≤ 2 then y - 1 else y
  let era := y2 / 400
  let yoe := y2 - era * 400
  let mp := if 2 < m then m - 3 else m + 9
  let doy := (153 * mp + 2) / 5 + d - 1
  let doe := yoe * 365 + yoe / 4 - yoe / 100 + doy
  era * 146097 + doe - 719468

/-- Day-of-era of a day number: position within its 400-year (146097-day)
Gregorian cycle, counted from a cycle starting on a March 1. -/
def doeOf (z : Int) : Int := (z + 719468) % 146097

/-- Era (400-year cycle index) of a day number. -/
def eraOf (z : Int) : Int := (z + 719468) / 146097

/-- Year-of-era of a day-of-era value (0..399). -/
def yoeD (e : Int) : Int := (e - e / 1460 + e / 36524 - e / 146096) / 365

/-- Day-of-year (March-first-based, 0..365) of a day-of-era value. -/
def doyD (e : Int) : Int := e - (365 * yoeD e + yoeD e / 4 - yoeD e / 100)

/-- Shifted month index (0 = March .. 11 = February) of a day-of-year value. -/
def mpY (d : Int) : Int := (5 * d + 2) / 153

/-- Day-of-month (1..31) of a day-of-year value. -/
def dayY (d : Int) : Int := d - (153 * mpY d + 2) / 5 + 1

/-- Civil month (1..12) of a day-of-year value. -/
def monthY (d : Int) : Int := if mpY d < 10 then mpY d + 3 else mpY d - 9

/-- Civil month of a day number (`dt.month` in the source). -/
def monthOf (z : Int) : Int := monthY (doyD (doeOf z))

/-- Civil day-of-month of a day number (`dt.day` in the source). -/
def dayOf (z : Int) : Int := dayY (doyD (doeOf z))

/-- Civil year of a day number (`dt.year`). -/
def yearOf (z : Int) : Int :=
  yoeD (doeOf z) + eraOf z * 400 +
    (if monthY (doyD (doeOf z)) ≤ 2 then 1 else 0)

/-- Python `date.weekday()`: Monday = 0 .. Sunday = 6. -/
def weekday (z : Int) : Int := (z + 3) % 7

/-- `TUESDAY = 1` in the source. -/
def TUESDAY : Int := 1

/-- `WEDNESDAY = 2` in the source. -/
def WEDNESDAY : Int := 2

/-- `TrashDays._is_observed_holiday`: true iff the date is December 25 or
January 1 (any year). -/
def isObservedHoliday (z : Int) : Bool :=
  (monthOf z = 12 ∧ dayOf z = 25) ∨ (monthOf z = 1 ∧ dayOf z = 1)

/-- `TrashDays._holiday_adjust`: shift an observed holiday one day later,
otherwise return the date unchanged. -/
def holidayAdjust (z : Int) : Int :=
  if isObservedHoliday z then z + 1 else z

/-- `relativedelta(weekday=TU)` applied to a date: the Tuesday on or after it
(unchanged when the date is already a Tuesday). -/
def tuesdayOnOrAfter (z : Int) : Int := z + (1 - weekday z) % 7

/-- `TrashDays._determine_upcoming_trash_day`, with `TODAY` made an explicit
argument: Tuesday is trash day (holiday-adjusted); a Wednesday right after an
observed holiday is the makeup day; otherwise the next Tuesday strictly after
today, holiday-adjusted (`TODAY + relativedelta(days=1, weekday=TU)`). -/
def determineUpcomingTrashDay (today : Int) : Int :=
  if weekday today = TUESDAY then holidayAdjust today
  else if weekday today = WEDNESDAY ∧ isObservedHoliday (today - 1) then today
  else holidayAdjust (tuesdayOnOrAfter (today + 1))

/-- `RECYCLING_EPOCH = 2021-03-16` as a day number. -/
def RECYCLING_EPOCH : Int := daysFromCivil 2021 3 16

/-- The unadjusted dates produced by
`rrule(dtstart=RECYCLING_EPOCH, until=today+14, freq=WEEKLY, interval=2)`:
the epoch, stepping by 14 days, while the date is at most `today + 14`
(inclusive bounds, as `rrule` has). -/
def recyclingCandidates (today : Int) : List Int :=
  if RECYCLING_EPOCH ≤ today + 14 then
    (List.range ((today + 14 - RECYCLING_EPOCH).toNat / 14 + 1)).map
      (fun (k : Nat) => RECYCLING_EPOCH + 14 * (k : Int))
  else []

/-- `TrashDays._generate_recycling_days`, with `TODAY` explicit: each
candidate biweekly Tuesday passed through `holidayAdjust`. -/
def generateRecyclingDays (today : Int) : List Int :=
  (recyclingCandidates today).map holidayAdjust

/-- The result record of `TrashDays._render_params`.  The two string fields
(`trash_day_readable`, `trash_day`) are pure formatting of `trashDay` and are
not modelled; `countdown` and `recycling` carry the computed content. -/
structure Params where
  countdown : Int
  recycling : Bool
  deriving Repr, DecidableEq

/-- `TrashDays._render_params`, with `TODAY` explicit: countdown in days and
membership of the trash day in the generated recycling days. -/
def renderParams (trashDay today : Int) : Params :=
  { countdown := trashDay - today
  , recycling := decide (trashDay ∈ generateRecyclingDays today) }

/-! ### Calendar helper lemmas

The holiday predicate reads the civil month and day of a day number, so the
facts below establish the pieces of the civil conversion the claims rest on:
the year-of-era and day-of-year of a day-of-era stay in range, the day-of-year
determines the civil (month, day), and stepping one day forward from December
25 or January 1 moves the day-of-year by one within the same year-of-era. -/

theorem yoe_bounds (e : Int) (h0 : 0 ≤ e) (h1 : e < 146097) :
    0 ≤ yoeD e ∧ yoeD e ≤ 399 := by
  simp only [yoeD]; omega

set_option maxHeartbeats 8000000 in
theorem doy_bounds (e : Int) (h0 : 0 ≤ e) (h1 : e < 146097) :
    0 ≤ doyD e ∧ doyD e ≤ 365 := by
  obtain ⟨y, hy⟩ : ∃ y, yoeD e = y := ⟨_, rfl⟩
  obtain ⟨hy0, hy1⟩ := yoe_bounds e h0 h1
  rw [hy] at hy0 hy1
  simp only [doyD, hy]
  simp only [yoeD] at hy
  interval_cases y <;> omega

theorem yoe_stable_300 (y : Int) (h0 : 0 ≤ y) (h1 : y ≤ 399) :
    yoeD (365 * y + y / 4 - y / 100 + 300) = y := by
  simp only [yoeD]; omega

theorem yoe_stable_307 (y : Int) (h0 : 0 ≤ y) (h1 : y ≤ 399) :
    yoeD (365 * y + y / 4 - y / 100 + 307) = y := by
  simp only [yoeD]; omega

set_option maxRecDepth 8000 in
theorem holidayY_iff : ∀ d : Nat, d < 366 →
    (((monthY (d : Int) = 12 ∧ dayY (d : Int) = 25) ↔ (d : Int) = 299) ∧
     ((monthY (d : Int) = 1 ∧ dayY (d : Int) = 1) ↔ (d : Int) = 306)) := by
  decide

theorem doy_succ (e : Int) (h0 : 0 ≤ e) (h1 : e < 146097) (c : Int)
    (hc : c = 300 ∨ c = 307) (hd : doyD e = c - 1) :
    e + 1 < 146097 ∧ doyD (e + 1) = c := by
  obtain ⟨hy0, hy1⟩ := yoe_bounds e h0 h1
  have he : e = 365 * yoeD e + yoeD e / 4 - yoeD e / 100 + (c - 1) := by
    simp only [doyD] at hd; omega
  have h2 : yoeD (e + 1) = yoeD e := by
    rcases hc with hc | hc
    · have h3 : e + 1 = 365 * yoeD e + yoeD e / 4 - yoeD e / 100 + 300 := by omega
      rw [h3, yoe_stable_300 _ hy0 hy1]
    · have h3 : e + 1 = 365 * yoeD e + yoeD e / 4 - yoeD e / 100 + 307 := by omega
      rw [h3, yoe_stable_307 _ hy0 hy1]
  refine ⟨by omega, ?_⟩
  simp only [doyD, h2]
  omega

theorem RECYCLING_EPOCH_eq : RECYCLING_EPOCH = 18702 := by decide

theorem isObservedHoliday_succ (z : Int) (h : isObservedHoliday z = true) :
    isObservedHoliday (z + 1) = false := by
  have he0 : 0 ≤ doeOf z ∧ doeOf z < 146097 := by
    simp only [doeOf]; omega
  have hdoy := doy_bounds (doeOf z) he0.1 he0.2
  have hchar := holidayY_iff (doyD (doeOf z)).toNat (by omega)
  have hcast : ((doyD (doeOf z)).toNat : Int) = doyD (doeOf z) := by omega
  rw [hcast] at hchar
  simp only [isObservedHoliday, monthOf, dayOf, decide_eq_true_eq] at h
  have hd : doyD (doeOf z) = 299 ∨ doyD (doeOf z) = 306 := by
    rcases h with h | h
    · exact Or.inl (hchar.1.mp h)
    · exact Or.inr (by have := hchar.2.mp h; omega)
  have hsucc : doeOf z + 1 < 146097 ∧
      (doyD (doeOf z + 1) = 300 ∨ doyD (doeOf z + 1) = 307) := by
    rcases hd with hd | hd
    · have := doy_succ (doeOf z) he0.1 he0.2 300 (Or.inl rfl) (by omega)
      exact ⟨this.1, Or.inl this.2⟩
    · have := doy_succ (doeOf z) he0.1 he0.2 307 (Or.inr rfl) (by omega)
      exact ⟨this.1, Or.inr this.2⟩
  have hdoe1 : doeOf (z + 1) = doeOf z + 1 := by
    simp only [doeOf] at *; omega
  simp only [isObservedHoliday, monthOf, dayOf, hdoe1, decide_eq_false_iff_not]
  rcases hsucc.2 with hs | hs <;> rw [hs] <;> decide

/-! ### Claims -/

/-- C1: for every reference date D that falls on a Tuesday and is not an
observed holiday (its (month, day) is neither (12, 25) nor (1, 1)),
`determineUpcomingTrashDay D` returns D itself. -/
theorem claim_C1 (D : Int) (hT : weekday D = TUESDAY)
    (h25 : ¬(monthOf D = 12 ∧ dayOf D = 25))
    (h11 : ¬(monthOf D = 1 ∧ dayOf D = 1)) :
    determineUpcomingTrashDay D = D := by
  have hh : isObservedHoliday D = false := by
    simp only [isObservedHoliday, decide_eq_false_iff_not]
    tauto
  simp [determineUpcomingTrashDay, hT, holidayAdjust, hh]

/-- Witness for C1 at D = 2024-12-24, a Tuesday that is not a holiday. -/
theorem claim_C1_witness :
    weekday (daysFromCivil 2024 12 24) = TUESDAY ∧
    determineUpcomingTrashDay (daysFromCivil 2024 12 24) =
      daysFromCivil 2024 12 24 :=
  ⟨by decide,
   claim_C1 (daysFromCivil 2024 12 24) (by decide) (by decide) (by decide)⟩

/-- C2: for every reference date D whose (month, day) is (12, 25) or (1, 1)
and that falls on a Tuesday, `determineUpcomingTrashDay D` returns D + 1. -/
theorem claim_C2 (D : Int) (hT : weekday D = TUESDAY)
    (hH : (monthOf D = 12 ∧ dayOf D = 25) ∨ (monthOf D = 1 ∧ dayOf D = 1)) :
    determineUpcomingTrashDay D = D + 1 := by
  have hh : isObservedHoliday D = true := by
    simp only [isObservedHoliday, decide_eq_true_eq]
    exact hH
  simp [determineUpcomingTrashDay, hT, holidayAdjust, hh]

/-- Witness for C2 at D = 2018-12-25, a Tuesday that is December 25. -/
theorem claim_C2_witness :
    weekday (daysFromCivil 2018 12 25) = TUESDAY ∧
    determineUpcomingTrashDay (daysFromCivil 2018 12 25) =
      daysFromCivil 2018 12 25 + 1 :=
  ⟨by decide,
   claim_C2 (daysFromCivil 2018 12 25) (by decide) (Or.inl (by decide))⟩

/-- C3: for every reference date D that falls on a Wednesday and whose
previous day is an observed holiday, `determineUpcomingTrashDay D` returns D
unchanged (no further holiday adjustment is applied). -/
theorem claim_C3 (D : Int) (hW : weekday D = WEDNESDAY)
    (hH : isObservedHoliday (D - 1) = true) :
    determineUpcomingTrashDay D = D := by
  have h1 : ¬(weekday D = TUESDAY) := by rw [hW]; decide
  simp [determineUpcomingTrashDay, h1, hW, hH,
    show WEDNESDAY ≠ TUESDAY from by decide]

/-- Witness for C3 at D = 2018-12-26, the Wednesday after the Tuesday holiday
2018-12-25. -/
theorem claim_C3_witness :
    weekday (daysFromCivil 2018 12 26) = WEDNESDAY ∧
    determineUpcomingTrashDay (daysFromCivil 2018 12 26) =
      daysFromCivil 2018 12 26 :=
  ⟨by decide, claim_C3 (daysFromCivil 2018 12 26) (by decide) (by decide)⟩

/-- C4: for every reference date D that is neither a Tuesday nor a Wednesday
following an observed holiday, `determineUpcomingTrashDay D` equals
`holidayAdjust T` where `T = tuesdayOnOrAfter (D + 1)` is the first Tuesday
strictly after D (it is a Tuesday, is greater than D, and is least among later
Tuesdays); and for non-Tuesday, non-Wednesday D the result falls on a Tuesday
or Wednesday, is strictly greater than D, and is at most D + 8. -/
theorem claim_C4 (D : Int) (hT : weekday D ≠ TUESDAY)
    (hW : ¬(weekday D = WEDNESDAY ∧ isObservedHoliday (D - 1) = true)) :
    (determineUpcomingTrashDay D = holidayAdjust (tuesdayOnOrAfter (D + 1)) ∧
      weekday (tuesdayOnOrAfter (D + 1)) = TUESDAY ∧
      D < tuesdayOnOrAfter (D + 1) ∧
      (∀ t : Int, D < t → weekday t = TUESDAY → tuesdayOnOrAfter (D + 1) ≤ t)) ∧
    (weekday D ≠ WEDNESDAY →
      (weekday (determineUpcomingTrashDay D) = TUESDAY ∨
        weekday (determineUpcomingTrashDay D) = WEDNESDAY) ∧
      D < determineUpcomingTrashDay D ∧
      determineUpcomingTrashDay D ≤ D + 8) := by
  have hd : determineUpcomingTrashDay D =
      holidayAdjust (tuesdayOnOrAfter (D + 1)) := by
    simp only [determineUpcomingTrashDay, if_neg hT, if_neg hW]
  refine ⟨⟨hd, ?_, ?_, ?_⟩, ?_⟩
  · simp only [weekday, tuesdayOnOrAfter, TUESDAY]; omega
  · simp only [weekday, tuesdayOnOrAfter]; omega
  · intro t ht hwt
    simp only [weekday, TUESDAY] at hwt
    simp only [weekday, tuesdayOnOrAfter]
    omega
  · intro _
    rw [hd]
    have hres : holidayAdjust (tuesdayOnOrAfter (D + 1)) = tuesdayOnOrAfter (D + 1) ∨
        holidayAdjust (tuesdayOnOrAfter (D + 1)) = tuesdayOnOrAfter (D + 1) + 1 := by
      rcases h : isObservedHoliday (tuesdayOnOrAfter (D + 1)) with _ | _ <;>
        simp [holidayAdjust, h]
    rcases hres with hres | hres <;> rw [hres] <;>
      simp only [weekday, tuesdayOnOrAfter, TUESDAY, WEDNESDAY] <;> omega

/-- Witness for C4 at D = 2024-12-26, a Thursday. -/
theorem claim_C4_witness :
    weekday (daysFromCivil 2024 12 26) = 3 ∧
    determineUpcomingTrashDay (daysFromCivil 2024 12 26) =
      holidayAdjust (tuesdayOnOrAfter (daysFromCivil 2024 12 26 + 1)) :=
  ⟨by decide,
   ((claim_C4 (daysFromCivil 2024 12 26) (by decide) (by decide)).1).1⟩

/-- C5: `isObservedHoliday` holds exactly on (month, day) = (12, 25) or
(1, 1), depends on the date only through its (month, day) pair (so it is
independent of the year), and `holidayAdjust` shifts a holiday by exactly one
day and leaves every other date unchanged — a single shift, never two. -/
theorem claim_C5 :
    (∀ z : Int, isObservedHoliday z = true ↔
        ((monthOf z = 12 ∧ dayOf z = 25) ∨ (monthOf z = 1 ∧ dayOf z = 1))) ∧
    (∀ z w : Int, monthOf z = monthOf w → dayOf z = dayOf w →
        isObservedHoliday z = isObservedHoliday w) ∧
    (∀ z : Int, isObservedHoliday z = true → holidayAdjust z = z + 1) ∧
    (∀ z : Int, isObservedHoliday z = false → holidayAdjust z = z) ∧
    (∀ z : Int, holidayAdjust z = z ∨ holidayAdjust z = z + 1) := by
  refine ⟨?_, ?_, ?_, ?_, ?_⟩
  · intro z; simp [isObservedHoliday]
  · intro z w hm hd; simp [isObservedHoliday, hm, hd]
  · intro z h; simp [holidayAdjust, h]
  · intro z h; simp [holidayAdjust, h]
  · intro z
    rcases h : isObservedHoliday z with _ | _ <;> simp [holidayAdjust, h]

/-- Witness for C5 at 2025-01-01 (an observed holiday, shifted by one day)
and 2025-01-02 (not an observed holiday, unchanged). -/
theorem claim_C5_witness :
    holidayAdjust (daysFromCivil 2025 1 1) = daysFromCivil 2025 1 1 + 1 ∧
    holidayAdjust (daysFromCivil 2025 1 2) = daysFromCivil 2025 1 2 :=
  ⟨claim_C5.2.2.1 (daysFromCivil 2025 1 1) (by decide),
   claim_C5.2.2.2.1 (daysFromCivil 2025 1 2) (by decide)⟩

/-- C6: `generateRecyclingDays D` is exactly the holiday-adjusted image of the
unadjusted candidate dates, and a date c is an unadjusted candidate iff it lies
between the recycling epoch and D + 14 and is a whole multiple of 14 days from
the epoch (so the candidates are epoch, epoch + 14, ..., up to the largest one
at most D + 14). -/
theorem claim_C6 (D : Int) :
    generateRecyclingDays D = (recyclingCandidates D).map holidayAdjust ∧
    (∀ c : Int, c ∈ recyclingCandidates D ↔
        (RECYCLING_EPOCH ≤ c ∧ c ≤ D + 14 ∧ (c - RECYCLING_EPOCH) % 14 = 0)) := by
  refine ⟨rfl, ?_⟩
  intro c
  simp only [recyclingCandidates, RECYCLING_EPOCH_eq]
  constructor
  · intro hc
    by_cases h : (18702 : Int) ≤ D + 14
    · rw [if_pos h] at hc
      simp only [List.mem_map, List.mem_range] at hc
      obtain ⟨k, hk, he⟩ := hc
      omega
    · rw [if_neg h] at hc
      simp at hc
  · rintro ⟨h1, h2, h3⟩
    rw [if_pos (by omega : (18702 : Int) ≤ D + 14)]
    simp only [List.mem_map, List.mem_range]
    exact ⟨((c - 18702) / 14).toNat, by omega, by omega⟩

/-- Witness for C6: with D = epoch + 14, the date epoch + 28 (exactly the
until-bound D + 14) is a candidate, and the generator is the adjusted image of
the candidates at D = 18702 (the epoch itself). -/
theorem claim_C6_witness :
    RECYCLING_EPOCH + 28 ∈ recyclingCandidates (RECYCLING_EPOCH + 14) ∧
    generateRecyclingDays 18702 = (recyclingCandidates 18702).map holidayAdjust :=
  ⟨((claim_C6 (RECYCLING_EPOCH + 14)).2 (RECYCLING_EPOCH + 28)).mpr
      (by omega),
   (claim_C6 18702).1⟩

/-- C7 as written is false on the code: for D = 2024-12-24 (a Tuesday that is
not an observed holiday) the function returns D itself with countdown 0, not
2024-12-26 with countdown 2. -/
theorem claim_C7_counterexample :
    ¬(determineUpcomingTrashDay (daysFromCivil 2024 12 24) =
        daysFromCivil 2024 12 26 ∧
      (renderParams (determineUpcomingTrashDay (daysFromCivil 2024 12 24))
          (daysFromCivil 2024 12 24)).countdown = 2) := by
  decide

/-- C7 (amended): for the reference date D = 2024-12-24 (a Tuesday that is
not an observed holiday), `determineUpcomingTrashDay D` returns D itself
(2024-12-24) and the countdown field of the result record equals 0. -/
theorem claim_C7 :
    determineUpcomingTrashDay (daysFromCivil 2024 12 24) =
      daysFromCivil 2024 12 24 ∧
    (renderParams (determineUpcomingTrashDay (daysFromCivil 2024 12 24))
        (daysFromCivil 2024 12 24)).countdown = 0 := by
  decide

/-- C8: the recycling flag is true exactly when the trash day is a member of
`generateRecyclingDays referenceDate`; for D = the recycling epoch 2021-03-16
(a Tuesday) the trash day is D itself and the flag is true, and for
D = 2021-03-23 (a Tuesday one week later) the trash day is D itself and the
flag is false. -/
theorem claim_C8 :
    (∀ t D : Int, (renderParams t D).recycling = true ↔
        t ∈ generateRecyclingDays D) ∧
    determineUpcomingTrashDay RECYCLING_EPOCH = RECYCLING_EPOCH ∧
    (renderParams (determineUpcomingTrashDay RECYCLING_EPOCH)
        RECYCLING_EPOCH).recycling = true ∧
    determineUpcomingTrashDay (RECYCLING_EPOCH + 7) = RECYCLING_EPOCH + 7 ∧
    (renderParams (determineUpcomingTrashDay (RECYCLING_EPOCH + 7))
        (RECYCLING_EPOCH + 7)).recycling = false := by
  refine ⟨?_, ?_, ?_, ?_, ?_⟩
  · intro t D
    simp [renderParams]
  · decide
  · decide
  · decide
  · decide

/-- Witness for C8: the epoch itself is a member of its own recycling days. -/
theorem claim_C8_witness :
    RECYCLING_EPOCH ∈ generateRecyclingDays RECYCLING_EPOCH :=
  (claim_C8.1 RECYCLING_EPOCH RECYCLING_EPOCH).mp (by decide)

/-- C10: for every reference date D, the upcoming trash day falls on a
Tuesday or a Wednesday, lies between D and D + 7, and the countdown field of
the result record is between 0 and 7. -/
theorem claim_C10 (D : Int) :
    (weekday (determineUpcomingTrashDay D) = TUESDAY ∨
      weekday (determineUpcomingTrashDay D) = WEDNESDAY) ∧
    D ≤ determineUpcomingTrashDay D ∧
    determineUpcomingTrashDay D ≤ D + 7 ∧
    0 ≤ (renderParams (determineUpcomingTrashDay D) D).countdown ∧
    (renderParams (determineUpcomingTrashDay D) D).countdown ≤ 7 := by
  have hadj : ∀ w : Int, holidayAdjust w = w ∨ holidayAdjust w = w + 1 := by
    intro w; rcases h : isObservedHoliday w with _ | _ <;> simp [holidayAdjust, h]
  have hcd : (renderParams (determineUpcomingTrashDay D) D).countdown =
      determineUpcomingTrashDay D - D := rfl
  rw [hcd]
  by_cases h1 : weekday D = TUESDAY
  · have hD : determineUpcomingTrashDay D = holidayAdjust D := by
      simp [determineUpcomingTrashDay, h1]
    rcases hadj D with ha | ha <;> rw [hD, ha] <;>
      simp only [weekday, TUESDAY, WEDNESDAY] at h1 ⊢ <;> omega
  · by_cases h2 : weekday D = WEDNESDAY ∧ isObservedHoliday (D - 1) = true
    · have hD : determineUpcomingTrashDay D = D := by
        simp [determineUpcomingTrashDay, h1, h2,
          show WEDNESDAY ≠ TUESDAY from by decide]
      obtain ⟨h2a, _⟩ := h2
      rw [hD]
      simp only [weekday, TUESDAY, WEDNESDAY] at h2a ⊢
      omega
    · have hD : determineUpcomingTrashDay D =
          holidayAdjust (tuesdayOnOrAfter (D + 1)) := by
        simp only [determineUpcomingTrashDay, if_neg h1, if_neg h2]
      rcases hadj (tuesdayOnOrAfter (D + 1)) with ha | ha <;>
        rw [hD, ha] <;>
        simp only [weekday, tuesdayOnOrAfter, TUESDAY, WEDNESDAY] at h1 ⊢ <;>
        omega

/-- C9: the result of `holidayAdjust` is never itself an observed holiday
(December 26 and January 2 are not holidays), and `holidayAdjust` is
idempotent. -/
theorem claim_C9 (z : Int) :
    isObservedHoliday (holidayAdjust z) = false ∧
    holidayAdjust (holidayAdjust z) = holidayAdjust z := by
  rcases h : isObservedHoliday z with _ | _
  · simp [holidayAdjust, h]
  · have hs := isObservedHoliday_succ z h
    simp [holidayAdjust, h, hs]

end TrashDays
